import Mathlib

/-!
Shallow embedding of the interactive building editor in
`src/babylon/SceneController.ts` (solar-case repository), together with
theorems checking the natural-language specification against the code.

Numbers are modelled as rationals (`ℚ`); the JavaScript numeric literals
`0.5`, `0.65`, `0.001`, `0.1` become `1/2`, `65/100`, `1/1000`, `1/10`.
External library primitives that the repository merely calls
(`Math.atan2`, the trigonometric entries of Babylon's Y-rotation matrix)
are abstracted as function or value parameters; everything written in the
repository itself is embedded as executable Lean definitions.
-/

namespace SolarCase

/-- `RoofType` from `src/babylon/types.ts`. -/
inductive RoofType where
  | Flat
  | Gable
deriving DecidableEq, Repr

/-- The mutable per-building state kept in `mesh.metadata` plus the mesh's
transform (`position.x/z`, `rotation.y`) in `SceneController.ts`:
`width`, `depth`, `height` (the eaves height), `slope`, `roofType`. -/
structure Building where
  posx : ℚ
  posz : ℚ
  rotY : ℚ
  width : ℚ
  depth : ℚ
  height : ℚ
  slope : ℚ
  roofType : RoofType
deriving DecidableEq, Repr

/-- The derived ridge height of a building: `eavesHeight + slope`
(spec §3, and `top = oldHeight + oldSlope` in `setEavesHeight`). -/
def Building.ridge (b : Building) : ℚ := b.height + b.slope

/-- The part of `SceneController` state that the exposed mutating
commands read and write: the currently selected building (`selectedMesh`,
`null` when nothing is selected). -/
structure Controller where
  selected : Option Building
deriving DecidableEq, Repr

/-- Body of `setEavesHeight` (SceneController.ts lines 1018–1039) acting on
the selected building: `top = height + slope`,
`maxAllowedHeight = top - 0.5`, `clampedHeight = Math.min(newHeight,
maxAllowedHeight)`, `newSlope = top - clampedHeight`. -/
def setEavesHeightB (newHeight : ℚ) (b : Building) : Building :=
  let top := b.height + b.slope
  let maxAllowedHeight := top - 1/2
  let clampedHeight := min newHeight maxAllowedHeight
  let newSlope := top - clampedHeight
  { b with height := clampedHeight, slope := newSlope }

/-- `setEavesHeight` including its guard `if (!this.selectedMesh) return;`:
with no selection the controller state is unchanged. -/
def setEavesHeight (newHeight : ℚ) (c : Controller) : Controller :=
  match c.selected with
  | none => c
  | some b => { selected := some (setEavesHeightB newHeight b) }

/-- Body of `setRidgeHeight` (SceneController.ts lines 1041–1054) acting on
the selected building: `newSlope = newTop - height;
if (newSlope < 0.5) newSlope = 0.5;` then store the slope; the eaves
height is not written. -/
def setRidgeHeightB (newTop : ℚ) (b : Building) : Building :=
  let newSlope := newTop - b.height
  let newSlope2 := if newSlope < 1/2 then 1/2 else newSlope
  { b with slope := newSlope2 }

/-- `setRidgeHeight` including its guard `if (!this.selectedMesh) return;`. -/
def setRidgeHeight (newTop : ℚ) (c : Controller) : Controller :=
  match c.selected with
  | none => c
  | some b => { selected := some (setRidgeHeightB newTop b) }

/-- `setSlope` (SceneController.ts lines 993–1011), returning both the new
controller state and the value passed to the `onSlopeChange` callback
(`none` when the callback is not invoked). The body runs only when a
building is selected and its roof type is Gable; it stores
`limitedSlope = Math.max(0.5, Math.min(30, slope))` but reports the
original `slope` argument to the callback. -/
def setSlopeFull (slope : ℚ) (c : Controller) : Controller × Option ℚ :=
  match c.selected with
  | some b =>
    if b.roofType = RoofType.Gable then
      let limitedSlope := max (1/2) (min 30 slope)
      ({ selected := some { b with slope := limitedSlope } }, some slope)
    else (c, none)
  | none => (c, none)

/-- The state-transforming part of `setSlope`. -/
def setSlope (slope : ℚ) (c : Controller) : Controller :=
  (setSlopeFull slope c).1

end SolarCase

namespace SolarCase

/-- Claim C1: for a selected Gable building (ridge = eaves + slope),
`setEavesHeight h` sets the eaves to `min h (ridge - 1/2)`, recomputes the
slope as `ridge` minus the new eaves, and keeps the ridge fixed;
`setRidgeHeight r` sets the slope to `max (1/2) (r - eaves)` and keeps the
eaves fixed; after either call `slope ≥ 1/2` and
`eaves ≤ ridge - 1/2` hold, for every input. -/
theorem eaves_ridge_setters_spec (b : Building) (h r : ℚ)
    (_hg : b.roofType = RoofType.Gable) :
    (setEavesHeightB h b).height = min h (b.ridge - 1/2) ∧
    (setEavesHeightB h b).slope = b.ridge - (setEavesHeightB h b).height ∧
    (setEavesHeightB h b).ridge = b.ridge ∧
    (setRidgeHeightB r b).slope = max (1/2) (r - b.height) ∧
    (setRidgeHeightB r b).height = b.height ∧
    (1/2 ≤ (setEavesHeightB h b).slope ∧
      (setEavesHeightB h b).height ≤ (setEavesHeightB h b).ridge - 1/2) ∧
    (1/2 ≤ (setRidgeHeightB r b).slope ∧
      (setRidgeHeightB r b).height ≤ (setRidgeHeightB r b).ridge - 1/2) := by
  clear _hg
  refine ⟨rfl, ?_, ?_, ?_, rfl, ⟨?_, ?_⟩, ⟨?_, ?_⟩⟩
  · simp [setEavesHeightB, Building.ridge]
  · simp [setEavesHeightB, Building.ridge]
  · simp only [setRidgeHeightB, Building.ridge]
    split_ifs with hc
    · exact (max_eq_left (by linarith)).symm
    · exact (max_eq_right (by linarith)).symm
  · simp only [setEavesHeightB, Building.ridge]
    have : min h (b.height + b.slope - 1/2) ≤ b.height + b.slope - 1/2 :=
      min_le_right _ _
    linarith
  · simp only [setEavesHeightB, Building.ridge]
    have : min h (b.height + b.slope - 1/2) ≤ b.height + b.slope - 1/2 :=
      min_le_right _ _
    linarith
  · simp only [setRidgeHeightB]
    split_ifs with hc
    · linarith
    · linarith
  · simp only [setRidgeHeightB, Building.ridge]
    split_ifs with hc
    · linarith
    · linarith

/-- Witness for C1 at a concrete Gable building (the spec's default
building: width 10, depth 6, eaves 4, slope 2) with `h = 10`, `r = 3`. -/
theorem eaves_ridge_setters_spec_witness :
    let b : Building := ⟨0, 0, 0, 10, 6, 4, 2, RoofType.Gable⟩
    (setEavesHeightB 10 b).height = min 10 (b.ridge - 1/2) ∧
    (setEavesHeightB 10 b).slope = b.ridge - (setEavesHeightB 10 b).height ∧
    (setEavesHeightB 10 b).ridge = b.ridge ∧
    (setRidgeHeightB 3 b).slope = max (1/2) (3 - b.height) ∧
    (setRidgeHeightB 3 b).height = b.height ∧
    (1/2 ≤ (setEavesHeightB 10 b).slope ∧
      (setEavesHeightB 10 b).height ≤ (setEavesHeightB 10 b).ridge - 1/2) ∧
    (1/2 ≤ (setRidgeHeightB 3 b).slope ∧
      (setRidgeHeightB 3 b).height ≤ (setRidgeHeightB 3 b).ridge - 1/2) :=
  eaves_ridge_setters_spec ⟨0, 0, 0, 10, 6, 4, 2, RoofType.Gable⟩ 10 3 rfl

end SolarCase

namespace SolarCase

/-- Claim C2 counterexample: the invariants `eavesHeight ≥ 1` and
`ridgeHeight ≤ 30` are NOT preserved for arbitrary arguments. Starting from
the default Gable building (eaves 4, slope 2, so both invariants hold),
`setEavesHeight 0` stores eaves height `0 < 1`, and `setRidgeHeight 100`
yields ridge height `100 > 30`: the code has no lower clamp on the eaves
and no upper clamp on the ridge. -/
theorem height_invariants_counterexample :
    (1 ≤ (⟨0, 0, 0, 10, 6, 4, 2, RoofType.Gable⟩ : Building).height ∧
      (⟨0, 0, 0, 10, 6, 4, 2, RoofType.Gable⟩ : Building).height +
        (⟨0, 0, 0, 10, 6, 4, 2, RoofType.Gable⟩ : Building).slope ≤ 30) ∧
    (setEavesHeight 0 ⟨some ⟨0, 0, 0, 10, 6, 4, 2, RoofType.Gable⟩⟩).selected
      = some (setEavesHeightB 0 ⟨0, 0, 0, 10, 6, 4, 2, RoofType.Gable⟩) ∧
    (setEavesHeightB 0 ⟨0, 0, 0, 10, 6, 4, 2, RoofType.Gable⟩).height = 0 ∧
    ¬ (1 ≤ (setEavesHeightB 0 ⟨0, 0, 0, 10, 6, 4, 2, RoofType.Gable⟩).height) ∧
    (setRidgeHeight 100 ⟨some ⟨0, 0, 0, 10, 6, 4, 2, RoofType.Gable⟩⟩).selected
      = some (setRidgeHeightB 100 ⟨0, 0, 0, 10, 6, 4, 2, RoofType.Gable⟩) ∧
    (setRidgeHeightB 100 ⟨0, 0, 0, 10, 6, 4, 2, RoofType.Gable⟩).height +
      (setRidgeHeightB 100 ⟨0, 0, 0, 10, 6, 4, 2, RoofType.Gable⟩).slope = 100 ∧
    ¬ ((setRidgeHeightB 100 ⟨0, 0, 0, 10, 6, 4, 2, RoofType.Gable⟩).height +
      (setRidgeHeightB 100 ⟨0, 0, 0, 10, 6, 4, 2, RoofType.Gable⟩).slope ≤ 30) := by
  refine ⟨⟨by norm_num, by norm_num⟩, rfl, ?_, ?_, rfl, ?_, ?_⟩ <;>
    norm_num [setEavesHeightB, setRidgeHeightB]

/-- Claim C2 amended: the invariants `eavesHeight ≥ 1` and
`eavesHeight + slope ≤ 30` are preserved by `setEavesHeight h` only when
the requested value satisfies `h ≥ 1`, and by `setRidgeHeight r` only
when `r ≤ 30` (given the Gable invariant `slope ≥ 1/2`); for arbitrary
out-of-range arguments they can be violated. -/
theorem height_invariants_amended (b : Building) (h r : ℚ)
    (hb1 : 1 ≤ b.height) (hb2 : b.height + b.slope ≤ 30) (hbs : 1/2 ≤ b.slope)
    (hh : 1 ≤ h) (hr : r ≤ 30) :
    (1 ≤ (setEavesHeightB h b).height ∧
      (setEavesHeightB h b).height + (setEavesHeightB h b).slope ≤ 30) ∧
    (1 ≤ (setRidgeHeightB r b).height ∧
      (setRidgeHeightB r b).height + (setRidgeHeightB r b).slope ≤ 30) := by
  refine ⟨⟨?_, ?_⟩, ⟨?_, ?_⟩⟩
  · simp only [setEavesHeightB]
    exact le_min hh (by linarith)
  · simp only [setEavesHeightB]
    ring_nf
    linarith
  · simpa only [setRidgeHeightB] using hb1
  · simp only [setRidgeHeightB]
    split_ifs with hc
    · linarith
    · linarith

/-- Witness for the amended C2 at the default Gable building with
`h = 2`, `r = 10`. -/
theorem height_invariants_amended_witness :
    (1 ≤ (setEavesHeightB 2 ⟨0, 0, 0, 10, 6, 4, 2, RoofType.Gable⟩).height ∧
      (setEavesHeightB 2 ⟨0, 0, 0, 10, 6, 4, 2, RoofType.Gable⟩).height +
        (setEavesHeightB 2 ⟨0, 0, 0, 10, 6, 4, 2, RoofType.Gable⟩).slope ≤ 30) ∧
    (1 ≤ (setRidgeHeightB 10 ⟨0, 0, 0, 10, 6, 4, 2, RoofType.Gable⟩).height ∧
      (setRidgeHeightB 10 ⟨0, 0, 0, 10, 6, 4, 2, RoofType.Gable⟩).height +
        (setRidgeHeightB 10 ⟨0, 0, 0, 10, 6, 4, 2, RoofType.Gable⟩).slope ≤ 30) :=
  height_invariants_amended ⟨0, 0, 0, 10, 6, 4, 2, RoofType.Gable⟩ 2 10
    (by norm_num) (by norm_num) (by norm_num) (by norm_num) (by norm_num)

/-- Claim C8: with no selection, `setSlope`, `setEavesHeight` and
`setRidgeHeight` leave the controller state unchanged; `setSlope` is also
a no-op when the selected building's roof is not Gable, and otherwise
stores the slope clamped to `[1/2, 30]`; in particular `setSlope 40`
stores `30`. -/
theorem commands_no_selection_noop (c : Controller) (s h r : ℚ) :
    (c.selected = none →
      setSlope s c = c ∧ setEavesHeight h c = c ∧ setRidgeHeight r c = c) ∧
    (∀ b : Building, c.selected = some b → b.roofType ≠ RoofType.Gable →
      setSlope s c = c) ∧
    (∀ b : Building, c.selected = some b → b.roofType = RoofType.Gable →
      (setSlope s c).selected = some { b with slope := max (1/2) (min 30 s) }) ∧
    (∀ b : Building, c.selected = some b → b.roofType = RoofType.Gable →
      (setSlope 40 c).selected = some { b with slope := 30 }) := by
  obtain ⟨sel⟩ := c
  refine ⟨?_, ?_, ?_, ?_⟩
  · rintro rfl
    exact ⟨rfl, rfl, rfl⟩
  · rintro b rfl hng
    simp only [setSlope, setSlopeFull, if_neg hng]
  · rintro b rfl hg
    simp only [setSlope, setSlopeFull, if_pos hg]
  · rintro b rfl hg
    simp only [setSlope, setSlopeFull, if_pos hg]
    norm_num

/-- Witness for C8: the no-selection no-ops at input `3`, the non-Gable
no-op on a Flat building, and `setSlope 40` clamping to `30` on the
default Gable building. -/
theorem commands_no_selection_noop_witness :
    (setSlope 3 ⟨none⟩ = ⟨none⟩ ∧ setEavesHeight 3 ⟨none⟩ = ⟨none⟩ ∧
      setRidgeHeight 3 ⟨none⟩ = ⟨none⟩) ∧
    setSlope 3 ⟨some ⟨0, 0, 0, 10, 6, 5, 25, RoofType.Flat⟩⟩
      = ⟨some ⟨0, 0, 0, 10, 6, 5, 25, RoofType.Flat⟩⟩ ∧
    (setSlope 40 ⟨some ⟨0, 0, 0, 10, 6, 4, 2, RoofType.Gable⟩⟩).selected
      = some ⟨0, 0, 0, 10, 6, 4, 30, RoofType.Gable⟩ :=
  ⟨(commands_no_selection_noop ⟨none⟩ 3 3 3).1 rfl,
   (commands_no_selection_noop ⟨some ⟨0, 0, 0, 10, 6, 5, 25, RoofType.Flat⟩⟩
      3 3 3).2.1 _ rfl (by decide),
   (commands_no_selection_noop ⟨some ⟨0, 0, 0, 10, 6, 4, 2, RoofType.Gable⟩⟩
      3 3 3).2.2.2 _ rfl rfl⟩

/-- Claim C10: for a selected Gable building and a slope request outside
`[1/2, 30]`, the stored slope is the clamped value but the
`onSlopeChange` callback receives the original unclamped argument, so the
reported value differs from the stored one. -/
theorem slope_report_unclamped (c : Controller) (b : Building) (s : ℚ)
    (hsel : c.selected = some b) (hg : b.roofType = RoofType.Gable)
    (hout : s < 1/2 ∨ 30 < s) :
    (setSlopeFull s c).1.selected = some { b with slope := max (1/2) (min 30 s) } ∧
    (setSlopeFull s c).2 = some s ∧
    s ≠ max (1/2) (min 30 s) := by
  obtain ⟨sel⟩ := c
  cases hsel
  refine ⟨?_, ?_, ?_⟩
  · simp only [setSlopeFull, if_pos hg]
  · simp only [setSlopeFull, if_pos hg]
  · rcases hout with hlo | hhi
    · rw [min_eq_right (by linarith), max_eq_left (by linarith)]
      linarith
    · rw [min_eq_left (by linarith), max_eq_right (by norm_num)]
      linarith

/-- Witness for C10 at `setSlope 40` on the default Gable building:
stored `30`, reported `40`. -/
theorem slope_report_unclamped_witness :
    (setSlopeFull 40 ⟨some ⟨0, 0, 0, 10, 6, 4, 2, RoofType.Gable⟩⟩).1.selected
      = some { (⟨0, 0, 0, 10, 6, 4, 2, RoofType.Gable⟩ : Building) with
          slope := max (1/2) (min 30 40) } ∧
    (setSlopeFull 40 ⟨some ⟨0, 0, 0, 10, 6, 4, 2, RoofType.Gable⟩⟩).2 = some 40 ∧
    (40 : ℚ) ≠ max (1/2) (min 30 40) :=
  slope_report_unclamped ⟨some ⟨0, 0, 0, 10, 6, 4, 2, RoofType.Gable⟩⟩
    _ 40 rfl rfl (Or.inr (by norm_num))

end SolarCase

namespace SolarCase

/-- The three resize handle families of `handleResize`
(SceneController.ts lines 887–984): `corner`, `edge_width`, `edge_depth`. -/
inductive HandleKind where
  | corner
  | edgeWidth
  | edgeDepth
deriving DecidableEq, Repr

/-- One resize move: the dragged handle's kind and index
(`dragTarget.metadata.handleType/index`) and the drag point already
transformed into the building's local frame (`localPickPoint.x/z`); the
claims quantify over arbitrary drag points, and the world-to-local
transform is a bijection, so the local point is the free input. -/
structure ResizeMove where
  kind : HandleKind
  index : ℕ
  px : ℚ
  pz : ℚ
deriving DecidableEq, Repr

/-- The local bounding-box edges `minX/maxX/minZ/maxZ` of `handleResize`. -/
structure Bounds where
  minX : ℚ
  maxX : ℚ
  minZ : ℚ
  maxZ : ℚ
deriving DecidableEq, Repr

/-- `const MIN_SIZE = 1` in `handleResize`. -/
def MIN_SIZE : ℚ := 1

/-- The edge-update block of `handleResize` (lines 906–948): starting from
the current local bounds `[-w/2, w/2] × [-d/2, d/2]`, each affected edge
is updated from the local pick point with strict clamping
(`Math.min(p.x, maxX - MIN_SIZE)` for min edges,
`Math.max(p.x, minX + MIN_SIZE)` for max edges), in the source's
statement order. Corner index sets: `{0,3}` left, `{1,2}` right,
`{0,1}` back, `{2,3}` front. -/
def resizeBounds (w d : ℚ) (m : ResizeMove) : Bounds :=
  let minX := -(w / 2)
  let maxX := w / 2
  let minZ := -(d / 2)
  let maxZ := d / 2
  match m.kind with
  | HandleKind.corner =>
    let minX := if m.index = 0 ∨ m.index = 3 then min m.px (maxX - MIN_SIZE) else minX
    let maxX := if m.index = 1 ∨ m.index = 2 then max m.px (minX + MIN_SIZE) else maxX
    let minZ := if m.index = 0 ∨ m.index = 1 then min m.pz (maxZ - MIN_SIZE) else minZ
    let maxZ := if m.index = 2 ∨ m.index = 3 then max m.pz (minZ + MIN_SIZE) else maxZ
    ⟨minX, maxX, minZ, maxZ⟩
  | HandleKind.edgeWidth =>
    if m.index = 0 then ⟨min m.px (maxX - MIN_SIZE), maxX, minZ, maxZ⟩
    else ⟨minX, max m.px (minX + MIN_SIZE), minZ, maxZ⟩
  | HandleKind.edgeDepth =>
    if m.index = 0 then ⟨minX, maxX, min m.pz (maxZ - MIN_SIZE), maxZ⟩
    else ⟨minX, maxX, minZ, max m.pz (minZ + MIN_SIZE)⟩

/-- The whole of `handleResize` on the building state: new width/depth are
`maxX - minX` / `maxZ - minZ`, and the position is shifted by the
world-rotated local center `((minX+maxX)/2, 0, (minZ+maxZ)/2)`
(`Vector3.TransformNormal(localShift, worldMatrix)`). The parameters
`c`, `s` stand for the cosine and sine of the building's yaw in Babylon's
`RotationY` world matrix, whose transform-normal of `(x, 0, z)` is
`(x*c + z*s, 0, -(x*s) + z*c)`. -/
def resizeStep (c s : ℚ) (b : Building) (m : ResizeMove) : Building :=
  let bb := resizeBounds b.width b.depth m
  let newWidth := bb.maxX - bb.minX
  let newDepth := bb.maxZ - bb.minZ
  let shiftX := (bb.minX + bb.maxX) / 2
  let shiftZ := (bb.minZ + bb.maxZ) / 2
  { b with
      width := newWidth
      depth := newDepth
      posx := b.posx + (shiftX * c + shiftZ * s)
      posz := b.posz + (-(shiftX * s) + shiftZ * c) }

/-- A sequence of resize moves, each with its own yaw cosine/sine pair. -/
def applyMoves (b : Building) (moves : List (ℚ × ℚ × ResizeMove)) : Building :=
  moves.foldl (fun bb csm => resizeStep csm.1 csm.2.1 bb csm.2.2) b

theorem resizeBounds_no_swap (w d : ℚ) (m : ResizeMove)
    (hw : 1 ≤ w) (hd : 1 ≤ d) :
    (resizeBounds w d m).minX ≤ (resizeBounds w d m).maxX - 1 ∧
    (resizeBounds w d m).minZ ≤ (resizeBounds w d m).maxZ - 1 := by
  obtain ⟨k, i, px, pz⟩ := m
  cases k
  case corner =>
    dsimp only [resizeBounds, MIN_SIZE]
    constructor
    · split_ifs with h03 h12 h12
      · linarith [le_max_right px (min px (w / 2 - 1) + 1),
          min_le_right px (w / 2 - 1)]
      · linarith [min_le_right px (w / 2 - 1)]
      · linarith [le_max_right px (-(w / 2) + 1)]
      · linarith
    · split_ifs with h01 h23 h23
      · linarith [le_max_right pz (min pz (d / 2 - 1) + 1),
          min_le_right pz (d / 2 - 1)]
      · linarith [min_le_right pz (d / 2 - 1)]
      · linarith [le_max_right pz (-(d / 2) + 1)]
      · linarith
  case edgeWidth =>
    dsimp only [resizeBounds, MIN_SIZE]
    split_ifs with h0
    · exact ⟨by linarith [min_le_right px (w / 2 - 1)], by linarith⟩
    · exact ⟨by linarith [le_max_right px (-(w / 2) + 1)], by linarith⟩
  case edgeDepth =>
    dsimp only [resizeBounds, MIN_SIZE]
    split_ifs with h0
    · exact ⟨by linarith, by linarith [min_le_right pz (d / 2 - 1)]⟩
    · exact ⟨by linarith, by linarith [le_max_right pz (-(d / 2) + 1)]⟩

theorem resizeStep_min_size (c s : ℚ) (b : Building) (m : ResizeMove)
    (hw : 1 ≤ b.width) (hd : 1 ≤ b.depth) :
    1 ≤ (resizeStep c s b m).width ∧ 1 ≤ (resizeStep c s b m).depth := by
  have h := resizeBounds_no_swap b.width b.depth m hw hd
  simp only [resizeStep]
  constructor <;> [linarith [h.1]; linarith [h.2]]

/-- Claim C3: after any sequence of corner/edge-width/edge-depth resize
moves with arbitrary drag points, the building's width and depth are
still at least `MIN_SIZE = 1`, and in every single move each affected
edge is clamped independently so the min edge never crosses
`max edge - 1` (no sign swap). -/
theorem resize_min_size_invariant (b : Building)
    (moves : List (ℚ × ℚ × ResizeMove)) (hw : 1 ≤ b.width) (hd : 1 ≤ b.depth) :
    (1 ≤ (applyMoves b moves).width ∧ 1 ≤ (applyMoves b moves).depth) ∧
    (∀ (w d : ℚ) (m : ResizeMove), 1 ≤ w → 1 ≤ d →
      (resizeBounds w d m).minX ≤ (resizeBounds w d m).maxX - 1 ∧
      (resizeBounds w d m).minZ ≤ (resizeBounds w d m).maxZ - 1) := by
  refine ⟨?_, fun w d m hw hd => resizeBounds_no_swap w d m hw hd⟩
  induction moves generalizing b with
  | nil => exact ⟨hw, hd⟩
  | cons csm rest ih =>
    have hstep := resizeStep_min_size csm.1 csm.2.1 b csm.2.2 hw hd
    simpa only [applyMoves, List.foldl_cons] using
      ih (resizeStep csm.1 csm.2.1 b csm.2.2) hstep.1 hstep.2

/-- Witness for C3: the default building (width 10, depth 6) after a
two-move sequence with extreme drag points. -/
theorem resize_min_size_invariant_witness :
    (1 ≤ (applyMoves ⟨0, 0, 0, 10, 6, 4, 2, RoofType.Gable⟩
        [(1, 0, ⟨HandleKind.corner, 0, 1000, -1000⟩),
         (1, 0, ⟨HandleKind.edgeWidth, 1, -500, 0⟩)]).width ∧
      1 ≤ (applyMoves ⟨0, 0, 0, 10, 6, 4, 2, RoofType.Gable⟩
        [(1, 0, ⟨HandleKind.corner, 0, 1000, -1000⟩),
         (1, 0, ⟨HandleKind.edgeWidth, 1, -500, 0⟩)]).depth) ∧
    (∀ (w d : ℚ) (m : ResizeMove), 1 ≤ w → 1 ≤ d →
      (resizeBounds w d m).minX ≤ (resizeBounds w d m).maxX - 1 ∧
      (resizeBounds w d m).minZ ≤ (resizeBounds w d m).maxZ - 1) :=
  resize_min_size_invariant ⟨0, 0, 0, 10, 6, 4, 2, RoofType.Gable⟩
    [(1, 0, ⟨HandleKind.corner, 0, 1000, -1000⟩),
     (1, 0, ⟨HandleKind.edgeWidth, 1, -500, 0⟩)]
    (by norm_num) (by norm_num)

/-- Claim C4: dragging corner handle 0 to local point `(-3, -1)` on a
building with width 10 and depth 6 (local bounds `[-5,5] × [-3,3]`) gives
new bounds `minX = -3`, `maxX = 5`, `minZ = -1`, `maxZ = 3`, hence
`newWidth = 8` and `newDepth = 4`, and shifts the position by the
world-rotated vector `((minX+maxX)/2, 0, (minZ+maxZ)/2) = (1, 0, 1)` so
the new box is centered at the building's local origin. -/
theorem corner_drag_scenario (c s px pz ry h sl : ℚ) (rt : RoofType) :
    (resizeBounds 10 6 ⟨HandleKind.corner, 0, -3, -1⟩).minX = -3 ∧
    (resizeBounds 10 6 ⟨HandleKind.corner, 0, -3, -1⟩).maxX = 5 ∧
    (resizeBounds 10 6 ⟨HandleKind.corner, 0, -3, -1⟩).minZ = -1 ∧
    (resizeBounds 10 6 ⟨HandleKind.corner, 0, -3, -1⟩).maxZ = 3 ∧
    (resizeStep c s ⟨px, pz, ry, 10, 6, h, sl, rt⟩
        ⟨HandleKind.corner, 0, -3, -1⟩).width = 8 ∧
    (resizeStep c s ⟨px, pz, ry, 10, 6, h, sl, rt⟩
        ⟨HandleKind.corner, 0, -3, -1⟩).depth = 4 ∧
    (resizeStep c s ⟨px, pz, ry, 10, 6, h, sl, rt⟩
        ⟨HandleKind.corner, 0, -3, -1⟩).posx = px + (1 * c + 1 * s) ∧
    (resizeStep c s ⟨px, pz, ry, 10, 6, h, sl, rt⟩
        ⟨HandleKind.corner, 0, -3, -1⟩).posz = pz + (-(1 * s) + 1 * c) := by
  have hb : resizeBounds 10 6 ⟨HandleKind.corner, 0, -3, -1⟩
      = ⟨-3, 5, -1, 3⟩ := by
    simp only [resizeBounds, MIN_SIZE]
    norm_num
  refine ⟨by rw [hb], by rw [hb], by rw [hb], by rw [hb], ?_, ?_, ?_, ?_⟩ <;>
    simp only [resizeStep, hb] <;> norm_num

end SolarCase

namespace SolarCase

/-- The three viewports of the editor. -/
inductive ViewportKind where
  | plan
  | iso
  | elevation
deriving DecidableEq, Repr

/-- Pointer-to-viewport routing as coded in both `handlePointer`
(SceneController.ts lines 341–349) and `refreshInput` (lines 1087–1099):
`isPlanView = x < canvasWidth * 0.65`,
`isElevationView = !isPlanView && y > canvasHeight * 0.5`, and the
default viewport is `iso`. -/
def routeViewport (cw ch x y : ℚ) : ViewportKind :=
  let isPlanView : Bool := decide (x < cw * (65 / 100))
  let isElevationView : Bool := !isPlanView && decide (y > ch * (1 / 2))
  if isPlanView then ViewportKind.plan
  else if isElevationView then ViewportKind.elevation
  else ViewportKind.iso

/-- Claim C6 counterexample: on a 100×100 canvas, the pointer at
`(65, 50)` has `x ≥ 0.65·width` and `y = 0.5·height` exactly, yet the
code routes it to Iso, not Elevation — the elevation test is the strict
comparison `y > 0.5·height`. -/
theorem viewport_routing_boundary_counterexample :
    ¬ ((65 : ℚ) < 100 * (65 / 100)) ∧ (50 : ℚ) = 100 * (1 / 2) ∧
    routeViewport 100 100 65 50 = ViewportKind.iso ∧
    routeViewport 100 100 65 50 ≠ ViewportKind.elevation := by
  have h1 : ¬ ((65 : ℚ) < 100 * (65 / 100)) := by norm_num
  have h2 : ¬ ((100 : ℚ) * (1 / 2) < 50) := by norm_num
  have hroute : routeViewport 100 100 65 50 = ViewportKind.iso := by
    simp [routeViewport, h1, h2]
    norm_num
  refine ⟨h1, by norm_num, hroute, ?_⟩
  rw [hroute]
  decide

/-- Claim C6 amended: routing is a total function of canvas-relative
position; `x < 0.65·width` resolves to Plan, `x ≥ 0.65·width` with
`y > 0.5·height` resolves to Elevation, and `x ≥ 0.65·width` with
`y ≤ 0.5·height` — including the boundary `y = 0.5·height` — resolves
to Iso. -/
theorem viewport_routing_total (cw ch x y : ℚ) :
    (x < cw * (65 / 100) → routeViewport cw ch x y = ViewportKind.plan) ∧
    (cw * (65 / 100) ≤ x → ch * (1 / 2) < y →
      routeViewport cw ch x y = ViewportKind.elevation) ∧
    (cw * (65 / 100) ≤ x → y ≤ ch * (1 / 2) →
      routeViewport cw ch x y = ViewportKind.iso) := by
  refine ⟨fun hx => ?_, fun hx hy => ?_, fun hx hy => ?_⟩
  · simp [routeViewport, hx]
  · simp [routeViewport, not_lt.mpr hx, hy]
    linarith
  · simp [routeViewport, not_lt.mpr hx, not_lt.mpr hy]
    linarith

/-- Witness for the amended C6 on a 100×100 canvas: `(10, 10)` routes to
Plan, `(65, 51)` to Elevation, `(65, 50)` (the exact boundary) to Iso. -/
theorem viewport_routing_total_witness :
    routeViewport 100 100 10 10 = ViewportKind.plan ∧
    routeViewport 100 100 65 51 = ViewportKind.elevation ∧
    routeViewport 100 100 65 50 = ViewportKind.iso :=
  ⟨(viewport_routing_total 100 100 10 10).1 (by norm_num),
   (viewport_routing_total 100 100 65 51).2.1 (by norm_num) (by norm_num),
   (viewport_routing_total 100 100 65 50).2.2 (by norm_num) (by norm_num)⟩

/-- One elevation scroll event (SceneController.ts lines 377–399):
`elevationZoom += deltaY * 0.001` then
`elevationZoom = Math.max(0.1, Math.min(elevationZoom, 5))`. -/
def zoomStep (zoom deltaY : ℚ) : ℚ :=
  max (1 / 10) (min (zoom + deltaY * (1 / 1000)) 5)

/-- The elevation camera's ortho size after zooming:
`orthoSize = 30 * elevationZoom`. -/
def elevOrthoSize (zoom : ℚ) : ℚ := 30 * zoom

/-- Claim C7: a scroll of `deltaY = 1000` from the default zoom `1` sets
the elevation zoom to `2` and doubles the ortho size from `30` to `60`;
and starting from any zoom in `[1/10, 5]`, any sequence of scroll events
keeps the zoom within `[1/10, 5]`. -/
theorem elevation_zoom_scenario_and_range :
    zoomStep 1 1000 = 2 ∧
    zoomStep 1 1000 = min 5 (1 + 1000 * (1 / 1000)) ∧
    elevOrthoSize (zoomStep 1 1000) = 60 ∧
    elevOrthoSize (zoomStep 1 1000) = 2 * elevOrthoSize 1 ∧
    (∀ (z : ℚ) (deltas : List ℚ), 1 / 10 ≤ z → z ≤ 5 →
      1 / 10 ≤ deltas.foldl zoomStep z ∧ deltas.foldl zoomStep z ≤ 5) := by
  refine ⟨by norm_num [zoomStep], by norm_num [zoomStep],
    by norm_num [zoomStep, elevOrthoSize], by norm_num [zoomStep, elevOrthoSize],
    ?_⟩
  intro z deltas hlo hhi
  induction deltas generalizing z with
  | nil => exact ⟨hlo, hhi⟩
  | cons dlt rest ih =>
    have hstep_lo : 1 / 10 ≤ zoomStep z dlt := le_max_left _ _
    have hstep_hi : zoomStep z dlt ≤ 5 := by
      simp only [zoomStep]
      rcases le_total (z + dlt * (1 / 1000)) 5 with hc | hc
      · rw [min_eq_left hc]
        rcases le_total (1 / 10) (z + dlt * (1 / 1000)) with hcc | hcc
        · rw [max_eq_right hcc]; exact hc
        · rw [max_eq_left hcc]; norm_num
      · rw [min_eq_right hc, max_eq_right (by norm_num)]
    simpa only [List.foldl_cons] using ih (zoomStep z dlt) hstep_lo hstep_hi

/-- Witness for C7's range part at `z = 1` with the scroll sequence
`[1000, 1000000, -1000000]`. -/
theorem elevation_zoom_range_witness :
    1 / 10 ≤ [(1000 : ℚ), 1000000, -1000000].foldl zoomStep 1 ∧
    [(1000 : ℚ), 1000000, -1000000].foldl zoomStep 1 ≤ 5 :=
  elevation_zoom_scenario_and_range.2.2.2.2 1 [1000, 1000000, -1000000]
    (by norm_num) (by norm_num)

/-- The rotate-handle drag step (SceneController.ts lines 593–597):
`dx = dragPoint.x - position.x`, `dz = dragPoint.z - position.z`,
`rotation.y = Math.atan2(dx, dz)`. `Math.atan2` is an external library
primitive, abstracted here as the function parameter `at2`. -/
def rotateStep (at2 : ℚ → ℚ → ℚ) (dragX dragZ : ℚ) (b : Building) : Building :=
  { b with rotY := at2 (dragX - b.posx) (dragZ - b.posz) }

/-- Claim C9: each rotate-drag move sets the yaw absolutely to
`atan2 dx dz` of the vector from the building's center to the drag
point; for any two prior yaw values the resulting yaw is identical, so
the result is independent of prior yaw. -/
theorem rotation_absolute (at2 : ℚ → ℚ → ℚ) (b : Building)
    (y1 y2 dragX dragZ : ℚ) :
    (rotateStep at2 dragX dragZ { b with rotY := y1 }).rotY
      = at2 (dragX - b.posx) (dragZ - b.posz) ∧
    (rotateStep at2 dragX dragZ { b with rotY := y1 }).rotY
      = (rotateStep at2 dragX dragZ { b with rotY := y2 }).rotY ∧
    (rotateStep at2 dragX dragZ { b with rotY := y1 }).posx = b.posx ∧
    (rotateStep at2 dragX dragZ { b with rotY := y1 }).posz = b.posz :=
  ⟨rfl, rfl, rfl, rfl⟩

end SolarCase

namespace SolarCase

/-- The `metadata.handleType` strings of handle meshes in
`SceneController.ts`. -/
inductive HType where
  | corner
  | edgeWidth
  | edgeDepth
  | rotate
  | guide
deriving DecidableEq, Repr

/-- The `metadata.type` strings of scene meshes. -/
inductive MType where
  | handle
  | building
  | ground
  | preview
  | background
deriving DecidableEq, Repr

/-- The three cameras used for raycasting in `handlePointer`. -/
inductive Cam where
  | plan
  | iso
  | elevation
deriving DecidableEq, Repr

/-- `camera.layerMask`: `MASK_PLAN = 0x1`, `MASK_ISO = 0x2`,
`MASK_ELEVATION = 0x4` (SceneController.ts lines 25–27, 159–161). -/
def cameraMask : Cam → ℕ
  | Cam.plan => 1
  | Cam.iso => 2
  | Cam.elevation => 4

/-- A mesh as seen by the pick predicates: its metadata type and handle
type, `isVisible`, `isPickable`, `layerMask`, and the distance at which
the current pick ray intersects it (`none` when the ray misses the mesh
geometry). -/
structure PMesh where
  mtype : MType
  handleType : Option HType
  isVisible : Bool
  isPickable : Bool
  layerMask : ℕ
  hitDist : Option ℚ
deriving DecidableEq, Repr

/-- The priority-pass predicate of `handlePointer`
(SceneController.ts lines 404–411): guides are strictly blocked when the
active camera is the Plan camera; otherwise a mesh qualifies iff
`(mesh.isVisible || handleType === 'guide') && mesh.isPickable &&
metadata.type === 'handle' && (mesh.layerMask & camera.layerMask) !== 0`. -/
def priorityPred (cam : Cam) (m : PMesh) : Bool :=
  if cam = Cam.plan ∧ m.handleType = some HType.guide then false
  else
    (m.isVisible || decide (m.handleType = some HType.guide)) &&
      m.isPickable && decide (m.mtype = MType.handle) &&
      decide (m.layerMask &&& cameraMask cam ≠ 0)

/-- The fallback-pass predicate (lines 414–418): every mesh visible to
the active camera's layer mask. -/
def fallbackPred (cam : Cam) (m : PMesh) : Bool :=
  decide (m.layerMask &&& cameraMask cam ≠ 0)

/-- The candidate list of `scene.pickWithRay`: meshes the ray intersects
and the predicate admits, paired with their hit distance. -/
def pickCandidates (meshes : List PMesh) (pred : PMesh → Bool) :
    List (PMesh × ℚ) :=
  meshes.filterMap fun mm =>
    match mm.hitDist with
    | some dd => if pred mm then some (mm, dd) else none
    | none => none

/-- Fold step selecting the closest candidate. -/
def hitStep (acc : Option (PMesh × ℚ)) (md : PMesh × ℚ) :
    Option (PMesh × ℚ) :=
  match acc with
  | none => some md
  | some m0 => if md.2 < m0.2 then some md else some m0

/-- The closest candidate along the ray. -/
def closestHit (cands : List (PMesh × ℚ)) : Option (PMesh × ℚ) :=
  cands.foldl hitStep none

/-- `scene.pickWithRay(ray, pred)`: the closest mesh the ray hits among
those the predicate admits. -/
def pickWithRay (meshes : List PMesh) (pred : PMesh → Bool) : Option PMesh :=
  (closestHit (pickCandidates meshes pred)).map Prod.fst

/-- The two-phase pick of `handlePointer` (lines 401–418): the priority
pass over handles first; only if it hits nothing, the fallback pass. -/
def scenePick (cam : Cam) (meshes : List PMesh) : Option PMesh :=
  match pickWithRay meshes (priorityPred cam) with
  | some hitm => some hitm
  | none => pickWithRay meshes (fallbackPred cam)

theorem hitStep_isSome (acc : Option (PMesh × ℚ)) (md : PMesh × ℚ) :
    (hitStep acc md).isSome := by
  cases acc with
  | none => rfl
  | some m0 =>
    simp only [hitStep]
    split_ifs <;> rfl

theorem foldl_hitStep_isSome (l : List (PMesh × ℚ))
    (acc : Option (PMesh × ℚ)) (h : acc.isSome) :
    (l.foldl hitStep acc).isSome := by
  induction l generalizing acc with
  | nil => exact h
  | cons x xs ih => exact ih (hitStep acc x) (hitStep_isSome acc x)

theorem closestHit_isSome_of_mem (cands : List (PMesh × ℚ))
    (md : PMesh × ℚ) (h : md ∈ cands) : (closestHit cands).isSome := by
  cases cands with
  | nil => cases h
  | cons x xs =>
    simp only [closestHit, List.foldl_cons]
    exact foldl_hitStep_isSome xs (hitStep none x) (hitStep_isSome none x)

theorem foldl_hitStep_mem (l : List (PMesh × ℚ)) (acc : Option (PMesh × ℚ))
    (md : PMesh × ℚ) (h : l.foldl hitStep acc = some md) :
    acc = some md ∨ md ∈ l := by
  induction l generalizing acc with
  | nil => exact Or.inl h
  | cons x xs ih =>
    rcases ih (hitStep acc x) (by simpa using h) with hs | hmem
    · cases acc with
      | none =>
        simp only [hitStep, Option.some.injEq] at hs
        rw [← hs]
        exact Or.inr (List.mem_cons_self x xs)
      | some m0 =>
        simp only [hitStep] at hs
        split_ifs at hs <;> simp only [Option.some.injEq] at hs
        · rw [← hs]
          exact Or.inr (List.mem_cons_self x xs)
        · rw [← hs]
          exact Or.inl rfl
    · exact Or.inr (List.mem_cons_of_mem x hmem)

theorem pickCandidates_pred (meshes : List PMesh) (pred : PMesh → Bool)
    (md : PMesh × ℚ) (hmd : md ∈ pickCandidates meshes pred) :
    pred md.1 = true ∧ md.1 ∈ meshes := by
  obtain ⟨b, hb, hf⟩ := List.mem_filterMap.mp hmd
  cases hdist : b.hitDist with
  | none =>
    rw [hdist] at hf
    cases hf
  | some d0 =>
    rw [hdist] at hf
    dsimp only at hf
    by_cases hp : pred b = true
    · rw [if_pos hp] at hf
      injection hf with hf2
      rw [← hf2]
      exact ⟨hp, hb⟩
    · rw [if_neg hp] at hf
      cases hf

theorem pickCandidates_mem_of (meshes : List PMesh) (pred : PMesh → Bool)
    (mm : PMesh) (dd : ℚ) (hm : mm ∈ meshes) (hp : pred mm = true)
    (hd : mm.hitDist = some dd) : (mm, dd) ∈ pickCandidates meshes pred :=
  List.mem_filterMap.mpr ⟨mm, hm, by rw [hd]; simp [hp]⟩

theorem pickWithRay_pred (meshes : List PMesh) (pred : PMesh → Bool)
    (m' : PMesh) (h : pickWithRay meshes pred = some m') :
    pred m' = true := by
  simp only [pickWithRay, Option.map_eq_some'] at h
  obtain ⟨md, hmd, hfst⟩ := h
  rcases foldl_hitStep_mem (pickCandidates meshes pred) none md hmd with hnone | hmem
  · cases hnone
  · rw [← hfst]
    exact (pickCandidates_pred meshes pred md hmem).1

theorem pickWithRay_isSome (meshes : List PMesh) (pred : PMesh → Bool)
    (mm : PMesh) (dd : ℚ) (hm : mm ∈ meshes) (hp : pred mm = true)
    (hd : mm.hitDist = some dd) : (pickWithRay meshes pred).isSome := by
  have h := closestHit_isSome_of_mem (pickCandidates meshes pred) (mm, dd)
    (pickCandidates_mem_of meshes pred mm dd hm hp hd)
  simpa [pickWithRay] using h

theorem priorityPred_handle (cam : Cam) (x : PMesh)
    (h : priorityPred cam x = true) : x.mtype = MType.handle := by
  simp only [priorityPred] at h
  split_ifs at h
  simp only [Bool.and_eq_true, decide_eq_true_eq] at h
  exact h.1.2

theorem priorityPred_plan_no_guide (x : PMesh)
    (h : priorityPred Cam.plan x = true) :
    x.handleType ≠ some HType.guide := by
  intro hg
  rw [priorityPred, if_pos ⟨rfl, hg⟩] at h
  exact Bool.false_ne_true h

/-- Claim C5: picking is two-phase with handles prioritized. Whenever
some mesh of metadata type `handle` that is pickable, mask-visible to the
active camera, and either visible or an (invisible) guide collider — and
not a guide while the Plan camera is active — is intersected by the pick
ray, the two-phase pick returns a handle and never a building, regardless
of any building meshes the ray also hits; and the priority pass never
returns a guide when the active camera is the Plan camera. -/
theorem picking_two_phase_priority (cam : Cam) (meshes : List PMesh)
    (m : PMesh) (hmem : m ∈ meshes) (hty : m.mtype = MType.handle)
    (hpick : m.isPickable = true)
    (hvis : m.isVisible = true ∨ m.handleType = some HType.guide)
    (hmask : m.layerMask &&& cameraMask cam ≠ 0)
    (hnotguide : ¬ (cam = Cam.plan ∧ m.handleType = some HType.guide))
    (hhit : m.hitDist.isSome) :
    (∃ m', scenePick cam meshes = some m' ∧ m'.mtype = MType.handle ∧
      m'.mtype ≠ MType.building) ∧
    (∀ m', pickWithRay meshes (priorityPred Cam.plan) = some m' →
      m'.handleType ≠ some HType.guide) := by
  refine ⟨?_, fun m' hm' => priorityPred_plan_no_guide m'
    (pickWithRay_pred meshes (priorityPred Cam.plan) m' hm')⟩
  have hpred : priorityPred cam m = true := by
    rw [priorityPred, if_neg hnotguide]
    simp only [Bool.and_eq_true, Bool.or_eq_true, decide_eq_true_eq]
    exact ⟨⟨⟨hvis, hpick⟩, hty⟩, hmask⟩
  obtain ⟨dd, hdd⟩ := Option.isSome_iff_exists.mp hhit
  have hsome := pickWithRay_isSome meshes (priorityPred cam) m dd hmem hpred hdd
  obtain ⟨m'', hm''⟩ := Option.isSome_iff_exists.mp hsome
  have hty'' : m''.mtype = MType.handle :=
    priorityPred_handle cam m'' (pickWithRay_pred meshes (priorityPred cam) m'' hm'')
  refine ⟨m'', ?_, hty'', by rw [hty'']; decide⟩
  simp only [scenePick, hm'']

/-- Witness for C5: Plan camera over a corner handle (mask 1, hit at
distance 1) sitting on a building (mask 3, hit at distance 2). -/
theorem picking_two_phase_priority_witness :
    (∃ m', scenePick Cam.plan
        [⟨MType.handle, some HType.corner, true, true, 1, some 1⟩,
         ⟨MType.building, none, true, true, 3, some 2⟩] = some m' ∧
      m'.mtype = MType.handle ∧ m'.mtype ≠ MType.building) ∧
    (∀ m', pickWithRay
        [⟨MType.handle, some HType.corner, true, true, 1, some 1⟩,
         ⟨MType.building, none, true, true, 3, some 2⟩]
        (priorityPred Cam.plan) = some m' →
      m'.handleType ≠ some HType.guide) :=
  picking_two_phase_priority Cam.plan
    [⟨MType.handle, some HType.corner, true, true, 1, some 1⟩,
     ⟨MType.building, none, true, true, 3, some 2⟩]
    ⟨MType.handle, some HType.corner, true, true, 1, some 1⟩
    (List.mem_cons_self _ _) rfl rfl (Or.inl rfl) (by decide)
    (by rintro ⟨-, hcontra⟩; cases hcontra) rfl

end SolarCase
